import Mathlib

/-!
# STOPme core pipeline: a shallow embedding in Lean 4

This file embeds the core real-time pipeline of the STOPme repository
(stream synchronizer, window framer, bounded event channel, event
dispatcher, activation policy) and proves or refutes the specification
claims about it.

Python floats and timestamps are modelled as rationals (`ℚ`); machine
behaviour of `float` is irrelevant to every claim below, which only
compares, adds and subtracts small decimal constants.  Python `None` is
`Option.none`; exceptions are explicit `Option`/error fields.
-/

namespace STOPme

/-! ## Bounded event channel — `utils/event_queue.py`

`queue.Queue(maxsize)` is modelled as a FIFO list plus its `maxsize`;
a queue with `maxsize > 0` is full exactly when it holds at least
`maxsize` items (`put_nowait` raises `Full` then), and `maxsize = 0`
means unbounded, as in CPython. -/

structure EventQueue (α : Type) where
  maxsize : ℕ
  items : List α
  deriving Repr, DecidableEq

/-- `Queue.put_nowait`: `none` models the `Full` exception. -/
def put_nowait {α : Type} (q : EventQueue α) (x : α) : Option (EventQueue α) :=
  if 0 < q.maxsize ∧ q.maxsize ≤ q.items.length then none
  else some { q with items := q.items ++ [x] }

/-- `Queue.get_nowait`: `none` models the `Empty` exception. -/
def get_nowait {α : Type} (q : EventQueue α) : Option (α × EventQueue α) :=
  match q.items with
  | [] => none
  | x :: rest => some (x, { q with items := rest })

/-- Truthiness of the `kind` argument (`if kind:` in Python): a string is
truthy when non-empty. -/
def kindTruthy : Option String → Bool
  | none => false
  | some s => decide (s ≠ "")

/-- Result of `enqueue_drop_oldest`: the updated queue, the updated
`_dropped_counts` dictionary (modelled as its `get(·, 0)` view), and the
Python return value.  `ret = none` models the implicit `None` returned
when an eviction happened but `kind` was falsy (the function falls off
its end on that path). -/
structure EnqueueResult (α : Type) where
  queue : EventQueue α
  counts : String → ℕ
  ret : Option (Bool × Option α)

/-- `utils/event_queue.py`, `enqueue_drop_oldest` (lines 27–48):
try `put_nowait`; on `Full` evict the oldest with `get_nowait`, retry the
put (swallowing a second `Full`), and bump the per-kind drop counter when
`kind` is truthy. -/
def enqueue_drop_oldest {α : Type} (q : EventQueue α) (counts : String → ℕ)
    (item : α) (kind : Option String) : EnqueueResult α :=
  match put_nowait q item with
  | some q1 => ⟨q1, counts, some (false, none)⟩
  | none =>
    match get_nowait q with
    | none => ⟨q, counts, some (false, none)⟩
    | some (dropped_item, q1) =>
      let q2 := (put_nowait q1 item).getD q1
      if kindTruthy kind then
        ⟨q2, fun k => if some k = kind then counts k + 1 else counts k,
          some (true, some dropped_item)⟩
      else
        ⟨q2, counts, none⟩

/-- Queue states after each publish of a single producer, oldest first. -/
def statesAfter {α : Type} (q : EventQueue α) (counts : String → ℕ)
    (kind : Option String) : List α → List (EventQueue α × (String → ℕ))
  | [] => []
  | x :: xs =>
    let r := enqueue_drop_oldest q counts x kind
    (r.queue, r.counts) :: statesAfter r.queue r.counts kind xs

/-- Final state after publishing a whole list. -/
def publishAll {α : Type} (q : EventQueue α) (counts : String → ℕ)
    (kind : Option String) : List α → EventQueue α × (String → ℕ)
  | [] => (q, counts)
  | x :: xs =>
    let r := enqueue_drop_oldest q counts x kind
    publishAll r.queue r.counts kind xs

/-- One publish onto a channel of capacity `cap` that currently holds
at most `cap` items keeps at most `cap` items, keeps the capacity, and
leaves the new item at the tail. -/
theorem enqueue_step_bound {α : Type} (cap : ℕ) (q : EventQueue α)
    (counts : String → ℕ) (item : α) (kind : Option String)
    (hcap : 1 ≤ cap) (hms : q.maxsize = cap) (hlen : q.items.length ≤ cap) :
    (enqueue_drop_oldest q counts item kind).queue.maxsize = cap ∧
    (enqueue_drop_oldest q counts item kind).queue.items.length ≤ cap ∧
    (enqueue_drop_oldest q counts item kind).queue.items.getLast? = some item := by
  by_cases hfull : 0 < q.maxsize ∧ q.maxsize ≤ q.items.length
  · match hq : q.items with
    | [] => rw [hq] at hfull; simp at hfull; omega
    | x :: rest =>
      have hr : rest.length + 1 ≤ cap := by
        have := hlen; rw [hq] at this; simpa using this
      have hnotfull2 :
          ¬(0 < q.maxsize ∧ q.maxsize ≤ rest.length) := by omega
      rw [hq] at hfull
      have hq2 : (enqueue_drop_oldest q counts item kind).queue =
          { q with items := rest ++ [item] } := by
        simp only [enqueue_drop_oldest, put_nowait, get_nowait, hq,
          if_pos hfull, if_neg hnotfull2, Option.getD_some]
        split <;> rfl
      rw [hq2]
      refine ⟨hms, ?_, by simp [List.getLast?_concat]⟩
      simp only [List.length_append, List.length_singleton]
      omega
  · simp only [enqueue_drop_oldest, put_nowait, if_neg hfull]
    have : q.items.length < cap ∨ cap = 0 := by omega
    refine ⟨hms, ?_, by simp [List.getLast?_concat]⟩
    simp only [List.length_append, List.length_singleton]
    omega

/-- The per-publish invariant propagated along a whole publish sequence:
every intermediate state holds at most `cap` items and ends with the
item just published. -/
theorem statesAfter_inv {α : Type} (cap : ℕ) (hcap : 1 ≤ cap)
    (kind : Option String) (xs : List α) :
    ∀ (q : EventQueue α) (counts : String → ℕ),
      q.maxsize = cap → q.items.length ≤ cap →
    ∀ (i : ℕ) (st : EventQueue α × (String → ℕ)),
      (statesAfter q counts kind xs).get? i = some st →
      st.1.items.length ≤ cap ∧ st.1.items.getLast? = xs.get? i := by
  induction xs with
  | nil => intro q counts _ _ i st h; simp [statesAfter] at h
  | cons x xs ih =>
    intro q counts hms hlen i st h
    obtain ⟨h1, h2, h3⟩ := enqueue_step_bound cap q counts x kind hcap hms hlen
    match i with
    | 0 =>
      simp only [statesAfter, List.get?_cons_zero, Option.some.injEq] at h
      subst h
      exact ⟨h2, by simpa using h3⟩
    | Nat.succ i =>
      simp only [statesAfter, List.get?_cons_succ] at h
      simpa using ih _ _ h1 h2 i st h

/-- C7: single-producer bounded channel.  After each publish the channel
holds at most `capacity` items and its newest item is the one just
published; with capacity 2, publishing A, B, C in order leaves contents
`[B, C]` and bumps the per-kind eviction counter to 1. -/
theorem bounded_channel_drop_oldest :
    (∀ (α : Type) (cap : ℕ), 1 ≤ cap →
      ∀ (kind : Option String) (xs : List α)
        (q : EventQueue α) (counts : String → ℕ),
        q.maxsize = cap → q.items.length ≤ cap →
      ∀ (i : ℕ) (st : EventQueue α × (String → ℕ)),
        (statesAfter q counts kind xs).get? i = some st →
        st.1.items.length ≤ cap ∧ st.1.items.getLast? = xs.get? i) ∧
    (publishAll ⟨2, []⟩ (fun _ => 0) (some "imu") ["A", "B", "C"]).1.items
        = ["B", "C"] ∧
    (publishAll ⟨2, []⟩ (fun _ => 0) (some "imu") ["A", "B", "C"]).2 "imu"
        = 1 := by
  refine ⟨?_, by rfl, by rfl⟩
  intro α cap hcap kind xs q counts hms hlen i st h
  exact statesAfter_inv cap hcap kind xs q counts hms hlen i st h

/-- Witness for C7 at a concrete input: capacity 2, one publish of `7`
onto the empty channel. -/
theorem bounded_channel_drop_oldest_witness :
    (⟨2, [7]⟩ : EventQueue ℕ).items.length ≤ 2 ∧
    (⟨2, [7]⟩ : EventQueue ℕ).items.getLast? = [7].get? 0 :=
  bounded_channel_drop_oldest.1 ℕ 2 (by decide) (some "imu") [7]
    ⟨2, []⟩ (fun _ => 0) rfl (by decide) 0 (⟨2, [7]⟩, fun _ => 0) rfl

/-! ## Window framer — `data_pipeline/data_buffer.py`

`DataBuffer` is parametric in the row type `ρ`: `add_buffer_row` builds a
20-float tuple from its six tuple arguments (lines 79–87) and never
inspects it afterwards, so the prebuilt row is passed as one value.
`window_size`, `hop_size` and `calibration_windows` come from the YAML
config as (in practice non-negative) Python ints, modelled as `ℕ`; the
code's `keep_from <= 0` stall-safety branch is `hop_size = 0` here.
The external native extractor `process_data_wrists_quat` together with
the pure per-channel array building of lines 131–162 (a rearrangement
and rescaling of `window_rows`) is the parameter `ext`; `ext w b = none`
models an exception from the native call or the reshape. -/

structure BufferState (ρ : Type) where
  window_size : ℕ
  hop_size : ℕ
  warmup_left : ℕ
  did_calibrate_once : Bool
  gate_actuation : Bool
  rows : List ρ
  ts : List ℚ
  windows_emitted : ℕ
  deriving Repr, DecidableEq

/-- `DataBuffer.is_calibrated` (lines 200–202). -/
def is_calibrated {ρ : Type} (s : BufferState ρ) : Bool :=
  s.did_calibrate_once

/-- `DataBuffer.should_gate_actuation` (lines 205–210). -/
def should_gate_actuation {ρ : Type} (s : BufferState ρ) : Bool :=
  s.gate_actuation && !(is_calibrated s)

/-- Outcome of one `add_buffer_row` call (lines 71–109): the mutated
buffer, the window slice handed to `_on_window_ready` at line 109 (if
any), and whether the call raised.  `raised = true` models the
`UnboundLocalError` at line 108: when no window was completed, the local
`window_rows` was never bound, yet line 108 reads it. -/
structure AddRowOutcome (ρ : Type) where
  state : BufferState ρ
  window : Option (List ρ × List ℚ)
  raised : Bool
  deriving Repr, DecidableEq

/-- `DataBuffer.add_buffer_row` (lines 71–109): append the row and its
timestamp; if the buffer now holds at least `window_size` rows, slice
the last `window_size` rows/timestamps and slide forward by `hop_size`
(clearing entirely when `hop_size ≤ 0`); otherwise fall through to
line 108, which raises `UnboundLocalError` on the unbound local
`window_rows`. -/
def add_buffer_row {ρ : Type} (s : BufferState ρ) (row : ρ) (ts_emit : ℚ) :
    AddRowOutcome ρ :=
  let rows := s.rows ++ [row]
  let ts := s.ts ++ [ts_emit]
  if s.window_size ≤ rows.length then
    let start := rows.length - s.window_size
    let window_rows := (rows.drop start).take s.window_size
    let window_ts := (ts.drop start).take s.window_size
    if s.hop_size = 0 then
      { state := { s with rows := [], ts := [] },
        window := some (window_rows, window_ts), raised := false }
    else
      { state := { s with rows := rows.drop s.hop_size, ts := ts.drop s.hop_size },
        window := some (window_rows, window_ts), raised := false }
  else
    { state := { s with rows := rows, ts := ts }, window := none, raised := true }

/-- Outcome of one `_on_window_ready` call: the mutated buffer state,
the `doCalibrate` flag passed to the extractor (`none` when the window
was consumed by warm-up), and the `(features, window_end_ts, gated)`
triple handed to the registered features sink (`none` when warm-up
skipped the window or the extractor failed). -/
structure WindowOutcome (ρ φ : Type) where
  state : BufferState ρ
  doCalibrate : Option Bool
  emission : Option (φ × ℚ × Bool)
  deriving Repr, DecidableEq

/-- `DataBuffer._on_window_ready` (lines 118–197): count the window;
skip it while warm-up windows remain; otherwise set `doCalibrate` for
the one-time calibration window and mark calibration done *before*
computing `gated = should_gate_actuation()` (line 166–168 precede line
187); on extractor failure log and return with no emission. -/
def on_window_ready {ρ φ : Type} (ext : List ρ → Bool → Option φ)
    (s : BufferState ρ) (window_rows : List ρ) (window_ts : List ℚ) :
    WindowOutcome ρ φ :=
  let s := { s with windows_emitted := s.windows_emitted + 1 }
  if 0 < s.warmup_left then
    { state := { s with warmup_left := s.warmup_left - 1 },
      doCalibrate := none, emission := none }
  else
    let doCalibrate := !s.did_calibrate_once
    let s := { s with did_calibrate_once := true }
    match ext window_rows doCalibrate with
    | none => { state := s, doCalibrate := some doCalibrate, emission := none }
    | some features =>
      let window_end_ts := window_ts.getLast?.getD 0
      let gated := should_gate_actuation s
      { state := s, doCalibrate := some doCalibrate,
        emission := some (features, window_end_ts, gated) }

/-- Outcomes of handing a sequence of completed windows to
`_on_window_ready`, in order. -/
def windowsOutcomes {ρ φ : Type} (ext : List ρ → Bool → Option φ) :
    BufferState ρ → List (List ρ × List ℚ) → List (WindowOutcome ρ φ)
  | _, [] => []
  | s, w :: ws =>
    let o := on_window_ready ext s w.1 w.2
    o :: windowsOutcomes ext o.state ws

/-- C4: `add_buffer_row` on a buffer that stays below `window_size`
after the append does *not* return normally: it appends the row and
then raises (`UnboundLocalError` on `window_rows` at line 108), handing
no window downstream.  This refutes the claim that every call completes
without raising. -/
theorem add_buffer_row_raises_below_window {ρ : Type} (s : BufferState ρ)
    (row : ρ) (ts : ℚ) (h : s.rows.length + 1 < s.window_size) :
    (add_buffer_row s row ts).raised = true ∧
    (add_buffer_row s row ts).window = none ∧
    (add_buffer_row s row ts).state =
      { s with rows := s.rows ++ [row], ts := s.ts ++ [ts] } := by
  have hlt : ¬ s.window_size ≤ s.rows.length + 1 := by omega
  simp [add_buffer_row, hlt]

/-- Witness for C4: the very first row fed to a fresh default buffer
(`window_size = 150`, `hop_size = 75`) raises. -/
theorem add_buffer_row_raises_below_window_witness :
    (add_buffer_row (⟨150, 75, 3, false, true, [], [], 0⟩ : BufferState ℕ)
        0 0).raised = true ∧
    (add_buffer_row (⟨150, 75, 3, false, true, [], [], 0⟩ : BufferState ℕ)
        0 0).window = none ∧
    (add_buffer_row (⟨150, 75, 3, false, true, [], [], 0⟩ : BufferState ℕ)
        0 0).state = ⟨150, 75, 3, false, true, [0], [0], 0⟩ :=
  add_buffer_row_raises_below_window
    (⟨150, 75, 3, false, true, [], [], 0⟩ : BufferState ℕ) 0 0 (by decide)

/-- C3 counterexample: `calibration_windows = 2`, gating enabled.  The
first two completed windows are consumed by warm-up, the third is the
one-time calibration window (`doCalibrate = true`) — but it is emitted
with `gated = false`, not `gated = true` as claimed, because
`_did_calibrate_once` is set at line 168 before `gated` is computed at
line 187.  Listed per window: `(doCalibrate, gated of the emission)`. -/
theorem third_window_emits_ungated_counterexample :
    (windowsOutcomes (fun _ b => (some b : Option Bool))
        (⟨150, 75, 2, false, true, [], [], 0⟩ : BufferState Unit)
        [([], []), ([], []), ([], [])]).map
      (fun o => (o.doCalibrate, o.emission.map fun e => e.2.2)) =
    [(none, none), (none, none), (some true, some false)] := by rfl

/-- Once calibration has happened (`did_calibrate_once = true`,
no warm-up left), every later window is extracted with
`doCalibrate = false` and emitted with `gated = false`. -/
theorem windowsOutcomes_after_calibration {ρ φ : Type}
    (ext : List ρ → Bool → Option φ)
    (hext : ∀ w b, (ext w b).isSome = true) :
    ∀ (ws : List (List ρ × List ℚ)) (s : BufferState ρ),
      s.did_calibrate_once = true → s.warmup_left = 0 →
    ∀ (i : ℕ) (o : WindowOutcome ρ φ),
      (windowsOutcomes ext s ws).get? i = some o →
      o.doCalibrate = some false ∧
      ∃ f t, o.emission = some (f, t, false) := by
  intro ws
  induction ws with
  | nil => intro s _ _ i o h; simp [windowsOutcomes] at h
  | cons w ws ih =>
    intro s hd hw i o h
    obtain ⟨f, hf⟩ := Option.isSome_iff_exists.mp (hext w.1 false)
    have ho : on_window_ready ext s w.1 w.2 =
        { state := { s with windows_emitted := s.windows_emitted + 1,
                            did_calibrate_once := true },
          doCalibrate := some false,
          emission := some (f, w.2.getLast?.getD 0, false) } := by
      simp [on_window_ready, hw, hd, hf, should_gate_actuation, is_calibrated]
    match i with
    | 0 =>
      simp only [windowsOutcomes, ho, List.get?_cons_zero, Option.some.injEq] at h
      subst h
      exact ⟨rfl, f, w.2.getLast?.getD 0, rfl⟩
    | Nat.succ i =>
      simp only [windowsOutcomes, List.get?_cons_succ] at h
      rw [ho] at h
      exact ih { s with windows_emitted := s.windows_emitted + 1,
                        did_calibrate_once := true } rfl hw i o h

/-- C3 amended: with `calibration_windows = 2` and gating enabled, the
first two completed windows produce no emission (warm-up, the extractor
is not called), the third is the one-time calibration window
(`doCalibrate = true`) but is emitted with `gated = false` (the
calibrated flag is set before gating is computed), and every later
window is extracted with `doCalibrate = false` and emitted with
`gated = false`; no emitted window ever carries `gated = true`. -/
theorem calibration_gating_schedule {ρ φ : Type}
    (ext : List ρ → Bool → Option φ)
    (hext : ∀ w b, (ext w b).isSome = true)
    (s : BufferState ρ)
    (hwarm : s.warmup_left = 2) (hcal : s.did_calibrate_once = false)
    (hgate : s.gate_actuation = true)
    (ws : List (List ρ × List ℚ)) (i : ℕ) (o : WindowOutcome ρ φ)
    (h : (windowsOutcomes ext s ws).get? i = some o) :
    (i < 2 → o.doCalibrate = none ∧ o.emission = none) ∧
    (i = 2 → o.doCalibrate = some true ∧
      ∃ f t, o.emission = some (f, t, false)) ∧
    (2 < i → o.doCalibrate = some false ∧
      ∃ f t, o.emission = some (f, t, false)) := by
  match ws with
  | [] => simp [windowsOutcomes] at h
  | w1 :: ws1 =>
    have ho1 : on_window_ready (φ := φ) ext s w1.1 w1.2 =
        { state := { s with windows_emitted := s.windows_emitted + 1,
                            warmup_left := 1 },
          doCalibrate := none, emission := none } := by
      simp [on_window_ready, hwarm]
    match i with
    | 0 =>
      simp only [windowsOutcomes, ho1, List.get?_cons_zero,
        Option.some.injEq] at h
      subst h
      exact ⟨fun _ => ⟨rfl, rfl⟩, by omega, by omega⟩
    | Nat.succ i =>
      simp only [windowsOutcomes, List.get?_cons_succ] at h
      rw [ho1] at h
      match ws1 with
      | [] => simp [windowsOutcomes] at h
      | w2 :: ws2 =>
        have ho2 : on_window_ready (φ := φ) ext
            { s with windows_emitted := s.windows_emitted + 1,
                     warmup_left := 1 } w2.1 w2.2 =
            { state := { s with windows_emitted := s.windows_emitted + 2,
                                warmup_left := 0 },
              doCalibrate := none, emission := none } := by
          simp [on_window_ready]
        match i with
        | 0 =>
          simp only [windowsOutcomes, ho2, List.get?_cons_zero,
            Option.some.injEq] at h
          subst h
          exact ⟨fun _ => ⟨rfl, rfl⟩, by omega, by omega⟩
        | Nat.succ i =>
          simp only [windowsOutcomes, List.get?_cons_succ] at h
          rw [ho2] at h
          match ws2 with
          | [] => simp [windowsOutcomes] at h
          | w3 :: ws3 =>
            obtain ⟨f, hf⟩ := Option.isSome_iff_exists.mp (hext w3.1 true)
            have ho3 : on_window_ready (φ := φ) ext
                { s with windows_emitted := s.windows_emitted + 2,
                         warmup_left := 0 } w3.1 w3.2 =
                { state :=
                    { s with
                      windows_emitted := s.windows_emitted + 3,
                      warmup_left := 0,
                      did_calibrate_once := true },
                  doCalibrate := some true,
                  emission := some (f, w3.2.getLast?.getD 0, false) } := by
              simp [on_window_ready, hcal, hf, should_gate_actuation,
                is_calibrated]
            match i with
            | 0 =>
              simp only [windowsOutcomes, ho3, List.get?_cons_zero,
                Option.some.injEq] at h
              subst h
              exact ⟨by omega, fun _ => ⟨rfl, f, w3.2.getLast?.getD 0, rfl⟩,
                by omega⟩
            | Nat.succ i =>
              simp only [windowsOutcomes, List.get?_cons_succ] at h
              rw [ho3] at h
              refine ⟨by omega, by omega, fun _ => ?_⟩
              exact windowsOutcomes_after_calibration ext hext ws3 _ rfl rfl
                i o h

/-- Witness for the amended C3 at a concrete input: calibration
windows 2, gating on, three completed windows; the third outcome is the
calibration window, emitted ungated. -/
theorem calibration_gating_schedule_witness :
    ((2 : ℕ) < 2 →
      (⟨⟨150, 75, 0, true, true, [], [], 3⟩, some true,
          some (true, 0, false)⟩ : WindowOutcome Unit Bool).doCalibrate = none ∧
      (⟨⟨150, 75, 0, true, true, [], [], 3⟩, some true,
          some (true, 0, false)⟩ : WindowOutcome Unit Bool).emission = none) ∧
    ((2 : ℕ) = 2 →
      (⟨⟨150, 75, 0, true, true, [], [], 3⟩, some true,
          some (true, 0, false)⟩ : WindowOutcome Unit Bool).doCalibrate
        = some true ∧
      ∃ f t, (⟨⟨150, 75, 0, true, true, [], [], 3⟩, some true,
          some (true, 0, false)⟩ : WindowOutcome Unit Bool).emission
        = some (f, t, false)) ∧
    ((2 : ℕ) < 2 →
      (⟨⟨150, 75, 0, true, true, [], [], 3⟩, some true,
          some (true, 0, false)⟩ : WindowOutcome Unit Bool).doCalibrate
        = some false ∧
      ∃ f t, (⟨⟨150, 75, 0, true, true, [], [], 3⟩, some true,
          some (true, 0, false)⟩ : WindowOutcome Unit Bool).emission
        = some (f, t, false)) :=
  calibration_gating_schedule (fun _ b => (some b : Option Bool))
    (fun _ _ => rfl) ⟨150, 75, 2, false, true, [], [], 0⟩ rfl rfl rfl
    [([], []), ([], []), ([], [])] 2
    ⟨⟨150, 75, 0, true, true, [], [], 3⟩, some true, some (true, 0, false)⟩
    rfl

/-! ## Steady feed through the framer (C6)

Rows are labelled by consecutive naturals so that "the last
`window_size` buffered rows at the moment of emission" is expressible;
the extractor always succeeds (its value is irrelevant to windowing).
Each step is a full `add_buffer_row` followed — when a window completed
— by `_on_window_ready`, exactly as lines 108–109 do; the
`UnboundLocalError` of the short-buffer path aborts only that call (the
append has already happened), so a steady feed of `R` rows is `R` such
calls. -/

/-- Feed `k` consecutively-labelled rows (`next`, `next+1`, …) into the
buffer, collecting for each completed window the slice handed to
`_on_window_ready` and whether it was emitted to the features sink. -/
def feedAux (ext : List ℕ → Bool → Option Unit) :
    (k : ℕ) → BufferState ℕ → ℕ → BufferState ℕ × List (List ℕ × Bool)
  | 0, s, _ => (s, [])
  | k + 1, s, next =>
    let o := add_buffer_row s next 0
    match o.window with
    | none => feedAux ext k o.state (next + 1)
    | some w =>
      let wo := on_window_ready ext o.state w.1 w.2
      let rest := feedAux ext k wo.state (next + 1)
      (rest.1, (w.1, wo.emission.isSome) :: rest.2)

/-- A steady feed of `R` rows into a fresh framer with
`window_size = 150`, `hop_size = 75` and no warm-up
(`calibration_windows = 0`). -/
def steadyFeed (R : ℕ) : BufferState ℕ × List (List ℕ × Bool) :=
  feedAux (fun _ _ => some ()) R ⟨150, 75, 0, false, true, [], [], 0⟩ 0

/-- Dropping `m` elements from `range' a (m + n)` leaves
`range' (a + m) n`. -/
theorem drop_range' (m : ℕ) :
    ∀ (a n : ℕ), (List.range' a (m + n)).drop m = List.range' (a + m) n := by
  induction m with
  | zero => intro a n; simp
  | succ m ih =>
    intro a n
    have h1 : m + 1 + n = (m + n) + 1 := by omega
    rw [h1, List.range'_succ, List.drop_succ_cons]
    have h2 := ih (a + 1) n
    rw [h2]
    congr 1
    omega

/-- Number of windows a further steady feed of `k` rows completes when
the buffer currently holds `len < 150` rows (window 150, hop 75):
the first after `150 - len` rows, then one every 75. -/
def windowsFrom (len k : ℕ) : ℕ :=
  if k < 150 - len then 0 else (k - (150 - len)) / 75 + 1

/-- Shape of the framer state along a steady feed: `len` buffered rows
labelled `a, a+1, …`, all timestamps 0. -/
def steadyState (d g : Bool) (e a len : ℕ) : BufferState ℕ :=
  ⟨150, 75, 0, d, g, List.range' a len, List.replicate len 0, e⟩

/-- Window-count recurrence: one more fed row while the buffer stays
short shifts the count. -/
theorem windowsFrom_short (len k : ℕ) (h : len + 1 < 150) :
    windowsFrom (len + 1) k = windowsFrom len (k + 1) := by
  simp only [windowsFrom]
  split_ifs <;> omega

/-- Window-count recurrence: a row completing a window from 149 buffered
rows adds one window and leaves 75 rows. -/
theorem windowsFrom_full (k : ℕ) :
    windowsFrom 75 k + 1 = windowsFrom 149 (k + 1) := by
  simp only [windowsFrom]
  split_ifs <;> omega

/-- Invariant of a steady feed: `k` more rows complete `windowsFrom len k`
windows, the `i`-th of them being exactly rows `a+75i … a+75i+149`, and
each is emitted to the features sink. -/
theorem feedAux_steady (k : ℕ) :
    ∀ (a len e : ℕ) (d g : Bool), len < 150 →
      ((feedAux (fun _ _ => some ()) k (steadyState d g e a len)
            (a + len)).2.length = windowsFrom len k) ∧
      (∀ (i : ℕ) (p : List ℕ × Bool),
        (feedAux (fun _ _ => some ()) k (steadyState d g e a len)
            (a + len)).2.get? i = some p →
          p.1 = List.range' (a + 75 * i) 150 ∧ p.2 = true) := by
  induction k with
  | zero =>
    intro a len e d g hlen
    refine ⟨?_, ?_⟩
    · simp only [feedAux, List.length_nil, windowsFrom]
      rw [if_pos (by omega)]
    · intro i p h; simp [feedAux] at h
  | succ k ih =>
    intro a len e d g hlen
    by_cases hfull : len + 1 = 150
    · have hlen149 : len = 149 := by omega
      subst hlen149
      -- the appended row completes a window of the last 150 rows
      have hadd : add_buffer_row (steadyState d g e a 149) (a + 149) 0 =
          { state := { steadyState d g e a 149 with
                        rows := List.range' (a + 75) 75,
                        ts := List.replicate 75 0 },
            window := some (List.range' a 150, List.replicate 150 0),
            raised := false } := by
        have hrows : List.range' a 149 ++ [a + 149] = List.range' a 150 :=
          (List.range'_1_concat a 149).symm
        have hts : List.replicate 149 (0 : ℚ) ++ [0] = List.replicate 150 0 :=
          (List.replicate_succ' 149 0).symm
        have hdrop : (List.range' a 150).drop 75 = List.range' (a + 75) 75 :=
          drop_range' 75 a 75
        have h1 : (150 : ℕ) ≤ (List.range' a 150).length := by simp
        simp [add_buffer_row, steadyState, hrows, hts, h1, hdrop,
          List.drop_replicate]
      have hwin : on_window_ready (fun _ _ => some ())
          ({ steadyState d g e a 149 with
              rows := List.range' (a + 75) 75,
              ts := List.replicate 75 0 })
          (List.range' a 150) (List.replicate 150 0) =
          { state := steadyState true g (e + 1) (a + 75) 75,
            doCalibrate := some (!d),
            emission := some ((), 0, false) } := by
        simp [on_window_ready, steadyState, should_gate_actuation,
          is_calibrated, List.getLast?_replicate]
      simp only [feedAux, hadd, hwin]
      have hnext : a + 149 + 1 = (a + 75) + 75 := by omega
      rw [hnext]
      obtain ⟨ihl, ihw⟩ := ih (a + 75) 75 (e + 1) true g (by omega)
      constructor
      · simp only [List.length_cons]
        rw [ihl]
        exact windowsFrom_full k
      · intro i p h
        match i with
        | 0 =>
          simp only [List.get?_cons_zero, Option.some.injEq] at h
          subst h
          simp
        | Nat.succ i =>
          simp only [List.get?_cons_succ] at h
          obtain ⟨hp1, hp2⟩ := ihw i p h
          refine ⟨?_, hp2⟩
          rw [hp1]
          congr 1
          omega
    · -- buffer still short: the call appends (and raises), no window
      have hadd : add_buffer_row (steadyState d g e a len) (a + len) 0 =
          { state := steadyState d g e a (len + 1),
            window := none, raised := true } := by
        have h1 : len < 149 := by omega
        simp [add_buffer_row, steadyState, h1, ← List.range'_1_concat,
          ← List.replicate_succ']
      simp only [feedAux, hadd]
      obtain ⟨ihl, ihw⟩ := ih a (len + 1) e d g (by omega)
      rw [show a + (len + 1) = a + len + 1 from rfl] at ihl ihw
      refine ⟨?_, ihw⟩
      rw [ihl]
      exact windowsFrom_short len k (by omega)

/-- C6: a steady feed of `R` joint rows into the framer with
`window_size = 150`, `hop_size = 75` and no warm-up emits exactly
`max 0 (⌊(R − 150)/75⌋ + 1)` windows, and the `i`-th emitted window is
exactly the last 150 buffered rows at the moment of its emission
(rows `75i … 75i + 149` of the feed). -/
theorem steady_feed_window_count (R : ℕ) :
    (((steadyFeed R).2.length : ℤ) = max 0 (((R : ℤ) - 150) / 75 + 1)) ∧
    (∀ (i : ℕ) (p : List ℕ × Bool),
      (steadyFeed R).2.get? i = some p →
        p.1 = List.range' (75 * i) 150 ∧ p.2 = true) := by
  obtain ⟨hl, hw⟩ := feedAux_steady R 0 0 0 false true (by omega)
  have hfeed : steadyFeed R =
      feedAux (fun _ _ => some ()) R (steadyState false true 0 0 0) (0 + 0) :=
    rfl
  constructor
  · rw [hfeed, hl]
    simp only [windowsFrom, Nat.sub_zero]
    rcases Nat.lt_or_ge R 150 with h | h
    · rw [if_pos h, max_eq_left (by omega : ((R : ℤ) - 150) / 75 + 1 ≤ 0)]
      rfl
    · rw [if_neg (by omega),
        max_eq_right (by omega : (0 : ℤ) ≤ ((R : ℤ) - 150) / 75 + 1)]
      omega
  · intro i p h
    rw [hfeed] at h
    obtain ⟨hp1, hp2⟩ := hw i p h
    rw [hp1]
    exact ⟨by norm_num, hp2⟩

set_option maxRecDepth 20000 in
/-- Witness for C6 at a concrete input: `R = 150` emits one window,
namely rows `0 … 149`. -/
theorem steady_feed_window_count_witness :
    (List.range' 0 150, true).1 = List.range' (75 * 0) 150 ∧
    (List.range' 0 150, true).2 = true :=
  (steady_feed_window_count 150).2 0 (List.range' 0 150, true) (by rfl)

/-! ## Stream synchronizer — `data_pipeline/synchronizer.py`

Timestamps and sample components are rationals.  The configured ids are
the source's hard-coded `"bc_left"` / `"bc_right"` (line 60);
`max_skew` and `stale` are already converted to seconds as in
`__init__`.  An element of `values` that Python's `float()` would
reject is `none`; a missing index (`IndexError`) is an out-of-range
lookup.  Both raise inside the `try` of lines 94–105 and are caught. -/

structure DevState where
  acc : Option (ℚ × ℚ × ℚ)
  gyr : Option (ℚ × ℚ × ℚ)
  quat : Option (ℚ × ℚ × ℚ × ℚ)
  ts_acc : ℚ
  ts_gyr : ℚ
  ts_quat : ℚ
  deriving Repr, DecidableEq

/-- `_DevState.ready` (line 30). -/
def DevState.ready (st : DevState) : Bool :=
  st.acc.isSome && st.gyr.isSome && st.quat.isSome

/-- `_DevState.newest_ts` (line 33): `max(ts_acc, ts_gyr, ts_quat)`. -/
def DevState.newest_ts (st : DevState) : ℚ :=
  max st.ts_acc (max st.ts_gyr st.ts_quat)

/-- `_DevState.clear_triplet` (line 36). -/
def DevState.clear_triplet (_st : DevState) : DevState :=
  ⟨none, none, none, 0, 0, 0⟩

/-- The row pushed to the buffer: RIGHT acc/gyr/quat, LEFT acc/gyr/quat,
then `ts_emit` (line 139).  The triplet fields hold exactly what the
Python tuple holds — the `_DevState` attributes, which are non-`None`
whenever the row is built from two ready sides. -/
structure JointRow where
  R_acc : Option (ℚ × ℚ × ℚ)
  R_gyr : Option (ℚ × ℚ × ℚ)
  R_quat : Option (ℚ × ℚ × ℚ × ℚ)
  L_acc : Option (ℚ × ℚ × ℚ)
  L_gyr : Option (ℚ × ℚ × ℚ)
  L_quat : Option (ℚ × ℚ × ℚ × ℚ)
  ts_emit : ℚ
  deriving Repr, DecidableEq

structure SyncState where
  max_skew : ℚ
  stale : ℚ
  left : DevState
  right : DevState
  emits : ℕ
  drops_left : ℕ
  drops_right : ℕ
  pending_row : Option JointRow
  deriving Repr, DecidableEq

/-- `IMUSynchronizer._try_emit_locked` (lines 119–155): optional stale
eviction, then — only if both sides are ready — either emit (aligned
within `max_skew`: build the row with `ts_emit = max tL tR`, bump
`emits`, clear both triplets, leave the row in `_pending_row`) or drop
the older side's triplet and set `_pending_row = None`.  When a side is
not ready the early `return` at line 132 leaves `_pending_row`
untouched. -/
def try_emit_locked (s : SyncState) (now : ℚ) : SyncState :=
  let s :=
    if 0 < s.stale ∧ s.left.ready ∧ s.stale < now - s.left.newest_ts then
      { s with left := s.left.clear_triplet, drops_left := s.drops_left + 1 }
    else s
  let s :=
    if 0 < s.stale ∧ s.right.ready ∧ s.stale < now - s.right.newest_ts then
      { s with right := s.right.clear_triplet, drops_right := s.drops_right + 1 }
    else s
  if ¬ (s.left.ready ∧ s.right.ready) then s
  else
    let tL := s.left.newest_ts
    let tR := s.right.newest_ts
    if |tL - tR| ≤ s.max_skew then
      let row : JointRow :=
        ⟨s.right.acc, s.right.gyr, s.right.quat,
         s.left.acc, s.left.gyr, s.left.quat, max tL tR⟩
      { s with emits := s.emits + 1,
               left := s.left.clear_triplet,
               right := s.right.clear_triplet,
               pending_row := some row }
    else
      let s :=
        if tL + s.max_skew < tR then
          { s with left := s.left.clear_triplet,
                   drops_left := s.drops_left + 1 }
        else if tR + s.max_skew < tL then
          { s with right := s.right.clear_triplet,
                   drops_right := s.drops_right + 1 }
        else s
      { s with pending_row := none }

/-- `float(values[0]), float(values[1]), float(values[2])`: succeeds only
when the first three elements exist and convert. -/
def pyFloat3 (values : List (Option ℚ)) : Option (ℚ × ℚ × ℚ) :=
  match values[0]?, values[1]?, values[2]? with
  | some (some a), some (some b), some (some c) => some (a, b, c)
  | _, _, _ => none

/-- As `pyFloat3`, for the four quaternion components. -/
def pyFloat4 (values : List (Option ℚ)) : Option (ℚ × ℚ × ℚ × ℚ) :=
  match values[0]?, values[1]?, values[2]?, values[3]? with
  | some (some a), some (some b), some (some c), some (some d) =>
      some (a, b, c, d)
  | _, _, _, _ => none

/-- Lock and hand-off operations attempted by one `update` call, in
program order.  `threading.Lock` is non-reentrant: an `acquire` by the
thread already holding the lock blocks forever. -/
inductive SyncAction where
  | acquire
  | release
  | addBufferRow
  deriving Repr, DecidableEq

/-- Does the trace attempt an `acquire` while the lock is already held
(depth `d > 0`)?  Under non-reentrant semantics that is a self-deadlock
of the calling thread. -/
def reacquiresWhileHeld : List SyncAction → ℕ → Bool
  | [], _ => false
  | .acquire :: tr, d => (0 < d) || reacquiresWhileHeld tr (d + 1)
  | .release :: tr, d => reacquiresWhileHeld tr (d - 1)
  | .addBufferRow :: tr, d => reacquiresWhileHeld tr d

/-- Does the trace call `buffer.add_buffer_row` while the lock is held
(inside the critical section)? -/
def emitsInsideLock : List SyncAction → ℕ → Bool
  | [], _ => false
  | .acquire :: tr, d => emitsInsideLock tr (d + 1)
  | .release :: tr, d => emitsInsideLock tr (d - 1)
  | .addBufferRow :: tr, d => (0 < d) || emitsInsideLock tr d

/-- `IMUSynchronizer.update` (lines 82–115).  Returns the final state,
the row handed to `buffer.add_buffer_row` (if that call is reached), and
the trace of lock/hand-off operations *attempted* in program order.
Note the source's indentation: the whole `row = self._pending_row` /
`if row:` block (lines 108–115) sits inside the outer
`with self._lock:` of line 92, and line 114 opens a nested
`with self._lock:`; the returned state is the one execution would reach
if the nested acquire succeeded. -/
def update (s : SyncState) (device_id kind : String)
    (values : List (Option ℚ)) (ts now : ℚ) :
    SyncState × Option JointRow × List SyncAction :=
  if device_id ≠ "bc_left" ∧ device_id ≠ "bc_right" then (s, none, [])
  else
    let isLeft := device_id = "bc_left"
    let st := if isLeft then s.left else s.right
    let conv : Option DevState :=
      if kind = "acc" then
        (pyFloat3 values).map fun v => { st with acc := some v, ts_acc := ts }
      else if kind = "gyr" then
        (pyFloat3 values).map fun v => { st with gyr := some v, ts_gyr := ts }
      else if kind = "quat" then
        (pyFloat4 values).map fun v => { st with quat := some v, ts_quat := ts }
      else none
    match conv with
    | none => (s, none, [.acquire, .release])
    | some st' =>
      let s1 := if isLeft then { s with left := st' } else { s with right := st' }
      let s2 := try_emit_locked s1 now
      match s2.pending_row with
      | none => (s2, none, [.acquire, .release])
      | some row =>
        ({ s2 with pending_row := none }, some row,
         [.acquire, .addBufferRow, .acquire, .release, .release])

/-- C1: an `update` call that builds an aligned row does *not* hand it
to the framer outside the critical section: the trace of the emitting
call shows `add_buffer_row` called at lock depth 1 (inside the outer
`with self._lock:`) and a second `acquire` of the same non-reentrant
lock while it is still held (line 114) — a self-deadlock of the calling
listener thread.  This refutes the claim at a concrete input (left acc
and gyr at `ts = 100`, right triplet complete at `ts = 100`, then the
left quat arriving at `ts = 100.02` with `max_skew = 25 ms`). -/
theorem update_emits_inside_lock_and_reacquires :
    (update ⟨1/40, 0,
        ⟨some (1, 2, 3), some (4, 5, 6), none, 100, 100, 0⟩,
        ⟨some (1, 2, 3), some (4, 5, 6), some (7, 8, 9, 10), 100, 100, 100⟩,
        0, 0, 0, none⟩
      "bc_left" "quat" [some 1, some 2, some 3, some 4]
      (5001/50) 101) =
    (⟨1/40, 0, ⟨none, none, none, 0, 0, 0⟩, ⟨none, none, none, 0, 0, 0⟩,
       1, 0, 0, none⟩,
     some ⟨some (1, 2, 3), some (4, 5, 6), some (7, 8, 9, 10),
           some (1, 2, 3), some (4, 5, 6), some (1, 2, 3, 4), 5001/50⟩,
     [.acquire, .addBufferRow, .acquire, .release, .release]) ∧
    emitsInsideLock
      [.acquire, .addBufferRow, .acquire, .release, .release] 0 = true ∧
    reacquiresWhileHeld
      [.acquire, .addBufferRow, .acquire, .release, .release] 0 = true := by
  refine ⟨?_, rfl, rfl⟩
  have h2 : try_emit_locked
      ⟨1/40, 0,
       ⟨some (1, 2, 3), some (4, 5, 6), some (1, 2, 3, 4), 100, 100, 5001/50⟩,
       ⟨some (1, 2, 3), some (4, 5, 6), some (7, 8, 9, 10), 100, 100, 100⟩,
       0, 0, 0, none⟩ 101 =
      ⟨1/40, 0, ⟨none, none, none, 0, 0, 0⟩, ⟨none, none, none, 0, 0, 0⟩,
       1, 0, 0,
       some ⟨some (1, 2, 3), some (4, 5, 6), some (7, 8, 9, 10),
             some (1, 2, 3), some (4, 5, 6), some (1, 2, 3, 4), 5001/50⟩⟩ := by
    norm_num [try_emit_locked, DevState.ready, DevState.newest_ts,
      DevState.clear_triplet, max_def, abs_le]
  simp only [update]
  simp [pyFloat4, ← one_div]
  rw [h2]

/-- C5: with `max_skew = 25 ms` and both sides ready — left newest
timestamp `100.000`, right newest `100.020` — one row is emitted with
`ts_emit = 100.020`, both triplets are cleared and `emits` is bumped;
with right newest `100.030` instead, nothing is emitted, only the older
left triplet is evicted (`drops_left = 1`) and the right triplet is
retained. -/
theorem skew_alignment_examples :
    try_emit_locked
        ⟨1/40, 0,
         ⟨some (1, 2, 3), some (4, 5, 6), some (7, 8, 9, 10), 100, 100, 100⟩,
         ⟨some (11, 12, 13), some (14, 15, 16), some (17, 18, 19, 20),
          100, 100, 5001/50⟩,
         0, 0, 0, none⟩ 0 =
      ⟨1/40, 0, ⟨none, none, none, 0, 0, 0⟩, ⟨none, none, none, 0, 0, 0⟩,
       1, 0, 0,
       some ⟨some (11, 12, 13), some (14, 15, 16), some (17, 18, 19, 20),
             some (1, 2, 3), some (4, 5, 6), some (7, 8, 9, 10),
             5001/50⟩⟩ ∧
    try_emit_locked
        ⟨1/40, 0,
         ⟨some (1, 2, 3), some (4, 5, 6), some (7, 8, 9, 10), 100, 100, 100⟩,
         ⟨some (11, 12, 13), some (14, 15, 16), some (17, 18, 19, 20),
          100, 100, 10003/100⟩,
         0, 0, 0, none⟩ 0 =
      ⟨1/40, 0, ⟨none, none, none, 0, 0, 0⟩,
       ⟨some (11, 12, 13), some (14, 15, 16), some (17, 18, 19, 20),
        100, 100, 10003/100⟩,
       0, 1, 0, none⟩ := by
  constructor <;>
    norm_num [try_emit_locked, DevState.ready, DevState.newest_ts,
      DevState.clear_triplet, max_def, abs_le]

/-- C10: an `update` whose device id is not one of the two configured
wrist ids, or whose kind is not `acc`/`gyr`/`quat`, or whose values do
not convert to the required 3 (resp. 4) floats, returns with the whole
synchronizer state unchanged (all triplets, timestamps and counters) and
hands no row to the framer. -/
theorem update_invalid_input_frame (s : SyncState) (device_id kind : String)
    (values : List (Option ℚ)) (ts now : ℚ)
    (h : (device_id ≠ "bc_left" ∧ device_id ≠ "bc_right") ∨
         (kind ≠ "acc" ∧ kind ≠ "gyr" ∧ kind ≠ "quat") ∨
         ((kind = "acc" ∨ kind = "gyr") ∧ pyFloat3 values = none) ∨
         (kind = "quat" ∧ pyFloat4 values = none)) :
    (update s device_id kind values ts now).1 = s ∧
    (update s device_id kind values ts now).2.1 = none := by
  unfold update
  rcases h with ⟨h1, h2⟩ | ⟨h1, h2, h3⟩ | ⟨h1, h2⟩ | ⟨h1, h2⟩
  · rw [if_pos ⟨h1, h2⟩]
    exact ⟨rfl, rfl⟩
  · by_cases hd : device_id ≠ "bc_left" ∧ device_id ≠ "bc_right"
    · rw [if_pos hd]; exact ⟨rfl, rfl⟩
    · rw [if_neg hd]
      simp only [if_neg h1, if_neg h2, if_neg h3]
      simp
  · by_cases hd : device_id ≠ "bc_left" ∧ device_id ≠ "bc_right"
    · rw [if_pos hd]; exact ⟨rfl, rfl⟩
    · rw [if_neg hd]
      rcases h1 with h1 | h1 <;> simp [h1, h2]
  · by_cases hd : device_id ≠ "bc_left" ∧ device_id ≠ "bc_right"
    · rw [if_pos hd]; exact ⟨rfl, rfl⟩
    · rw [if_neg hd]
      simp [h1, h2]

/-- Witness for C10 at a concrete input: an unknown device id leaves a
fresh synchronizer state untouched. -/
theorem update_invalid_input_frame_witness :
    (update ⟨1/40, 0, ⟨none, none, none, 0, 0, 0⟩, ⟨none, none, none, 0, 0, 0⟩,
        0, 0, 0, none⟩ "bc_unknown" "acc" [some 1, some 2, some 3] 5 5).1 =
      ⟨1/40, 0, ⟨none, none, none, 0, 0, 0⟩, ⟨none, none, none, 0, 0, 0⟩,
        0, 0, 0, none⟩ ∧
    (update ⟨1/40, 0, ⟨none, none, none, 0, 0, 0⟩, ⟨none, none, none, 0, 0, 0⟩,
        0, 0, 0, none⟩ "bc_unknown" "acc" [some 1, some 2, some 3] 5 5).2.1 =
      none :=
  update_invalid_input_frame
    ⟨1/40, 0, ⟨none, none, none, 0, 0, 0⟩, ⟨none, none, none, 0, 0, 0⟩,
      0, 0, 0, none⟩ "bc_unknown" "acc" [some 1, some 2, some 3] 5 5
    (Or.inl ⟨by decide, by decide⟩)

/-! ## Activation policy — `core/activation_policy.py`

`random.Random.choice` is the oracle `choice : List String → String`,
constrained in theorems only by membership (`choice l ∈ l` on non-empty
`l`), so results hold for every draw sequence the PRNG can produce.
`AudioLibrary.__getattr__` resolves a key through the `_files` table
(`utils/audio_paths.py`); a missing key raises `AttributeError`
(`none` here).  The `path.exists()` fallback inside a successful lookup
only switches between two concrete paths on disk and is modelled by the
resolved relative path. -/

inductive ActParams where
  | led : ℕ × ℕ × ℕ × ℕ → ℕ → ℕ → ActParams   -- color, intensity, speed
  | haptic : ℕ → ℕ → ActParams                 -- duty, duration (meta_)
  | audio : String → ActParams                 -- file
  deriving Repr, DecidableEq

/-- The `{actuator_id, params}` dictionary returned by `handle`. -/
structure ActResult where
  actuator_id : String
  params : ActParams
  deriving Repr, DecidableEq

def led_variants_mild : List ActParams :=
  [.led (255, 255, 255, 0) 50 100,
   .led (180, 220, 255, 0) 60 100,
   .led (200, 255, 200, 0) 70 100]

def led_variants_strong : List ActParams :=
  [.led (255, 0, 0, 0) 100 100,
   .led (255, 128, 0, 0) 100 100,
   .led (255, 0, 255, 0) 100 100]

def meta_variants_mild : List ActParams :=
  [.haptic 40 700, .haptic 55 800, .haptic 70 900]

def meta_variants_strong : List ActParams :=
  [.haptic 100 900, .haptic 100 1100, .haptic 100 1300]

/-- `AudioLibrary._files` (utils/audio_paths.py, lines 19–33). -/
def audioLibraryFiles : List (String × String) :=
  [("STATIONARY", "stationary.mp3"),
   ("WALKING", "walking.mp3"),
   ("WALKING_FAST", "walking_fast.mp3"),
   ("RUNNING", "running.mp3"),
   ("TEMPERATURE_DOWN", "temperature_down.mp3"),
   ("TEMPERATURE_UP", "temperature_up.mp3"),
   ("SPEAKER_CONNECT", "speaker_connected.mp3"),
   ("SPEAKER_DISCONNECT", "speaker_disconnected.mp3"),
   ("TEMPERATURE_LOW", "temperature_low.mp3"),
   ("TEMPERATURE_MEDIUM", "temperature_medium.mp3"),
   ("TEMPERATURE_HIGH", "temperature_high.mp3"),
   ("TEMPERATURE_CRITICAL", "temperature_critical.mp3"),
   ("MISSING_FILE", "missing_audio_file.mp3")]

/-- `getattr(AudioLibrary, name)`: `none` is the `AttributeError` for an
unknown key. -/
def audioLibraryGetattr (name : String) : Option String :=
  (audioLibraryFiles.lookup name).map (fun f => "assets/audio/" ++ f)

/-- `PolicyState` of `StereotipyActivationPolicy`: per-episode cursors
plus the per-severity "last successful actuator" memory (the dict with
keys `1` and `2`). -/
structure PolicyState where
  actuator_ids : List String
  retries_per_actuator : ℕ
  lang : String
  current_tag : Option ℤ
  current_actuator : Option String
  attempts_on_current : ℕ
  variation_idx : ℕ
  last_success_nd : Option String
  last_success_d : Option String
  deriving Repr, DecidableEq

/-- `self._last_success_actuator.get(tag)`. -/
def last_success_get (p : PolicyState) (tag : ℤ) : Option String :=
  if tag = 1 then p.last_success_nd
  else if tag = 2 then p.last_success_d
  else none

/-- `_remember_success` (lines 160–163). -/
def remember_success (p : PolicyState) (tag : ℤ) (aid : String) : PolicyState :=
  if tag = 1 then { p with last_success_nd := some aid }
  else if tag = 2 then { p with last_success_d := some aid }
  else p

/-- `_reset_state` (lines 165–169). -/
def reset_state (p : PolicyState) : PolicyState :=
  { p with current_tag := none, current_actuator := none,
           attempts_on_current := 0, variation_idx := 0 }

/-- `_pick_random` (lines 129–133): exclude the current actuator only
when `exclude` is truthy and more than one candidate exists; `None` on
an empty candidate list. -/
def pick_random (choice : List String → String) (p : PolicyState)
    (exclude : Option String) : Option String :=
  let candidates := p.actuator_ids
  let candidates :=
    if kindTruthy exclude ∧ 1 < candidates.length then
      candidates.filter (fun a => a ≠ exclude.getD "")
    else candidates
  if candidates = [] then none else some (choice candidates)

/-- `str.startswith(pre)`, over the id's character list (equivalent to
`String.startsWith`, but kernel-reducible). -/
def pyStartswith (s pre : String) : Bool :=
  pre.data.isPrefixOf s.data

/-- `_params_for` (lines 135–158): kind dispatch on the id's prefix, a
cyclic variant table per severity for led/haptic, a per-language audio
key (falling back to `MISSING_FILE` on `AttributeError`) for speakers,
`None` for an unrecognized kind or a falsy id. -/
def params_for (p : PolicyState) (actuator_id : Option String)
    (mild : Bool) (variation_index : ℕ) : Option ActResult :=
  if ¬ kindTruthy actuator_id then none
  else
    let aid := actuator_id.getD ""
    if pyStartswith aid "led_" then
      let variants := if mild then led_variants_mild else led_variants_strong
      some ⟨aid, variants.getD (variation_index % variants.length) (.led (0,0,0,0) 0 0)⟩
    else if pyStartswith aid "speaker_" then
      let key := if mild then "NON_DANGEROUS_" ++ p.lang.toUpper
                 else "DANGEROUS_" ++ p.lang.toUpper
      let file_path :=
        match audioLibraryGetattr key with
        | some pth => pth
        | none => (audioLibraryGetattr "MISSING_FILE").getD ""
      some ⟨aid, .audio file_path⟩
    else if pyStartswith aid "meta_" then
      let variants := if mild then meta_variants_mild else meta_variants_strong
      some ⟨aid, variants.getD (variation_index % variants.length) (.haptic 0 0)⟩
    else none

/-- `StereotipyActivationPolicy.handle` (lines 74–120), with the event
reduced to its parsed `stereotipy_tag` (`none` = unparseable). -/
def handle (choice : List String → String) (p : PolicyState)
    (tag : Option ℤ) : PolicyState × Option ActResult :=
  if p.actuator_ids = [] then (p, none)
  else if tag = some 0 ∨ tag = some 3 ∨ tag = none then
    let p :=
      if (p.current_tag = some 1 ∨ p.current_tag = some 2) ∧
          kindTruthy p.current_actuator then
        remember_success p (p.current_tag.getD 0) (p.current_actuator.getD "")
      else p
    (reset_state p, none)
  else
    let p :=
      if p.current_tag ≠ tag ∨ p.current_actuator = none then
        let preferred := last_success_get p (tag.getD 0)
        let cur :=
          match preferred with
          | some pr => if pr ∈ p.actuator_ids then some pr
                       else pick_random choice p none
          | none => pick_random choice p none
        { p with current_tag := tag, current_actuator := cur,
                 attempts_on_current := 0, variation_idx := 0 }
      else p
    let p :=
      if p.retries_per_actuator ≤ p.attempts_on_current then
        { p with current_actuator := pick_random choice p p.current_actuator,
                 attempts_on_current := 0, variation_idx := 0 }
      else p
    let mild := tag = some 1
    match params_for p p.current_actuator mild p.variation_idx with
    | some result =>
      ({ p with attempts_on_current := p.attempts_on_current + 1,
                variation_idx := p.variation_idx + 1 }, some result)
    | none =>
      let p := { p with
        current_actuator := pick_random choice p p.current_actuator,
        attempts_on_current := 0, variation_idx := 0 }
      match params_for p p.current_actuator mild p.variation_idx with
      | some result =>
        ({ p with attempts_on_current := p.attempts_on_current + 1,
                  variation_idx := p.variation_idx + 1 }, some result)
      | none => (p, none)

/-- Run `handle` over a sequence of parsed tags, collecting results. -/
def handleRun (choice : List String → String) (p : PolicyState) :
    List (Option ℤ) → PolicyState × List (Option ActResult)
  | [] => (p, [])
  | t :: ts =>
    let r := handle choice p t
    let rest := handleRun choice r.1 ts
    (rest.1, r.2 :: rest.2)

/-- An actuator id whose prefix `_params_for` recognizes. -/
def recognizedKind (a : String) : Bool :=
  pyStartswith a "led_" || pyStartswith a "speaker_" || pyStartswith a "meta_"

theorem recognizedKind_ne_empty {a : String} (h : recognizedKind a = true) :
    a ≠ "" := by
  intro he
  subst he
  exact absurd h (by decide)

/-- `_params_for` succeeds on a truthy id of recognized kind, returning
that id. -/
theorem params_for_spec (p : PolicyState) (aid : String)
    (hk : recognizedKind aid = true) (mild : Bool) (vi : ℕ) :
    ∃ r, params_for p (some aid) mild vi = some r ∧ r.actuator_id = aid := by
  have hne := recognizedKind_ne_empty hk
  have ht : kindTruthy (some aid) = true := by simp [kindTruthy, hne]
  have key : (params_for p (some aid) mild vi).isSome = true ∧
      (params_for p (some aid) mild vi).map ActResult.actuator_id
        = some aid := by
    by_cases hl : pyStartswith aid "led_"
    · simp [params_for, ht, hl]
    · by_cases hs : pyStartswith aid "speaker_"
      · simp [params_for, ht, hl, hs]
      · have hm : pyStartswith aid "meta_" := by
          simp [recognizedKind, hl, hs] at hk
          exact hk
        simp [params_for, ht, hl, hs, hm]
  obtain ⟨r, hr⟩ := Option.isSome_iff_exists.mp key.1
  refine ⟨r, hr, ?_⟩
  have h2 := key.2
  rw [hr] at h2
  simpa using h2

/-- A duplicate-free list of at least two elements keeps at least one
element under removal of a single value. -/
theorem filter_ne_nil_of_nodup (ids : List String) (hnd : ids.Nodup)
    (hlen : 2 ≤ ids.length) (x : String) :
    ids.filter (fun a => a ≠ x) ≠ [] := by
  intro hempty
  rw [List.filter_eq_nil_iff] at hempty
  match ids, hnd, hlen with
  | a :: b :: tl, hnd, _ =>
    have hab : a ≠ b := by
      rcases List.nodup_cons.mp hnd with ⟨hna, _⟩
      intro he
      exact hna (he ▸ List.mem_cons_self b tl)
    have ha := hempty a (by simp)
    have hb := hempty b (by simp)
    simp at ha hb
    exact hab (ha.trans hb.symm)

/-- `handle` on the first positive event of a fresh policy: pick an
actuator at random from the whole set, reset the cursors, and return an
actuation on it. -/
theorem handle_new_episode (choice : List String → String)
    (ids : List String) (hids : ids ≠ []) (retries : ℕ) (hret : 0 < retries)
    (lang : String) (t : ℤ) (ht : t = 1 ∨ t = 2)
    (hkx : recognizedKind (choice ids) = true) :
    ∃ r, handle choice ⟨ids, retries, lang, none, none, 0, 0, none, none⟩
        (some t) =
      (⟨ids, retries, lang, some t, some (choice ids), 1, 1, none, none⟩,
       some r) ∧ r.actuator_id = choice ids := by
  have hpick : pick_random choice
      ⟨ids, retries, lang, none, none, 0, 0, none, none⟩ none =
      some (choice ids) := by
    simp [pick_random, kindTruthy, hids]
  rcases ht with rfl | rfl
  · obtain ⟨r, hr, ha⟩ := params_for_spec
      ⟨ids, retries, lang, some 1, some (choice ids), 0, 0, none, none⟩
      (choice ids) hkx true 0
    refine ⟨r, ?_, ha⟩
    simp only [handle]
    simp [hids, hpick, last_success_get, Nat.not_le.mpr hret, hr]
  · obtain ⟨r, hr, ha⟩ := params_for_spec
      ⟨ids, retries, lang, some 2, some (choice ids), 0, 0, none, none⟩
      (choice ids) hkx false 0
    refine ⟨r, ?_, ha⟩
    simp only [handle]
    simp [hids, hpick, last_success_get, Nat.not_le.mpr hret, hr]

/-- `handle` on a repeated positive event below the retry limit: keep
the current actuator, bump the attempt and variation cursors. -/
theorem handle_same_actuator (choice : List String → String)
    (ids : List String) (hids : ids ≠ []) (retries att vi : ℕ)
    (hatt : att < retries) (lang : String) (t : ℤ) (ht : t = 1 ∨ t = 2)
    (x : String)
    (hkx : recognizedKind x = true) (ls1 ls2 : Option String) :
    ∃ r, handle choice ⟨ids, retries, lang, some t, some x, att, vi, ls1, ls2⟩
        (some t) =
      (⟨ids, retries, lang, some t, some x, att + 1, vi + 1, ls1, ls2⟩,
       some r) ∧ r.actuator_id = x := by
  rcases ht with rfl | rfl
  · obtain ⟨r, hr, ha⟩ := params_for_spec
      ⟨ids, retries, lang, some 1, some x, att, vi, ls1, ls2⟩ x hkx true vi
    refine ⟨r, ?_, ha⟩
    simp only [handle]
    simp [hids, Nat.not_le.mpr hatt, hr]
  · obtain ⟨r, hr, ha⟩ := params_for_spec
      ⟨ids, retries, lang, some 2, some x, att, vi, ls1, ls2⟩ x hkx false vi
    refine ⟨r, ?_, ha⟩
    simp only [handle]
    simp [hids, Nat.not_le.mpr hatt, hr]

/-- `handle` on a repeated positive event at the retry limit: rotate to
a random actuator excluding the current one, reset the cursors, and
actuate on the new choice. -/
theorem handle_rotate (choice : List String → String)
    (ids : List String) (hids : ids ≠ []) (retries att vi : ℕ)
    (hatt : retries ≤ att) (hlen : 1 < ids.length) (lang : String)
    (x : String) (hx : x ≠ "")
    (hfilter : ids.filter (fun a => a ≠ x) ≠ [])
    (hky : recognizedKind (choice (ids.filter (fun a => a ≠ x))) = true)
    (ls1 ls2 : Option String) :
    ∃ r, handle choice ⟨ids, retries, lang, some 1, some x, att, vi, ls1, ls2⟩
        (some 1) =
      (⟨ids, retries, lang, some 1,
        some (choice (ids.filter (fun a => a ≠ x))), 1, 1, ls1, ls2⟩,
       some r) ∧
      r.actuator_id = choice (ids.filter (fun a => a ≠ x)) := by
  set y := choice (ids.filter (fun a => a ≠ x)) with hy
  have hex : ∃ a ∈ ids, a ≠ x := by
    by_contra hc
    push_neg at hc
    exact hfilter (List.filter_eq_nil_iff.mpr (by
      intro a ha
      simpa using hc a ha))
  have hpick : pick_random choice
      ⟨ids, retries, lang, some 1, some x, att, vi, ls1, ls2⟩ (some x) =
      some y := by
    rw [hy]
    simp [pick_random, kindTruthy, hx, hlen, hex]
  obtain ⟨r, hr, ha⟩ := params_for_spec
    ⟨ids, retries, lang, some 1, some y, 0, 0, ls1, ls2⟩ y hky true 0
  refine ⟨r, ?_, ha⟩
  simp only [handle]
  simp [hids, hatt, hpick, hr]

/-- C8: with at least two (distinct, recognized-kind) actuators and
retry count `N = 3`, six consecutive positive events with tag 1 are
answered on the same actuator for the first three calls; the fourth call
— where attempts-on-current has reached `N` — rotates to a different
actuator (the current one is excluded from the draw) and resets the
attempt and variation cursors, and that actuator serves the next three
calls: the assignment pattern is `x, x, x, y, y, y` with `y ≠ x`, for
every possible sequence of PRNG draws. -/
theorem policy_rotation_pattern (choice : List String → String)
    (hchoice : ∀ l : List String, l ≠ [] → choice l ∈ l)
    (ids : List String) (hnd : ids.Nodup) (hlen : 2 ≤ ids.length)
    (lang : String)
    (hkind : ∀ a ∈ ids, recognizedKind a = true) :
    ∃ x y, x ∈ ids ∧ y ∈ ids ∧ y ≠ x ∧
      (handleRun choice ⟨ids, 3, lang, none, none, 0, 0, none, none⟩
          [some 1, some 1, some 1, some 1, some 1, some 1]).2.map
        (Option.map ActResult.actuator_id) =
      [some x, some x, some x, some y, some y, some y] := by
  have hids : ids ≠ [] := by
    intro h
    rw [h] at hlen
    simp at hlen
  have hlen1 : 1 < ids.length := hlen
  set x := choice ids with hxdef
  have hxmem : x ∈ ids := hchoice ids hids
  have hkx : recognizedKind x = true := hkind x hxmem
  have hxne : x ≠ "" := recognizedKind_ne_empty hkx
  have hfilter := filter_ne_nil_of_nodup ids hnd hlen x
  set y := choice (ids.filter (fun a => a ≠ x)) with hydef
  have hymem' : y ∈ ids.filter (fun a => a ≠ x) := hchoice _ hfilter
  have hymem : y ∈ ids := (List.mem_filter.mp hymem').1
  have hyne : y ≠ x := by
    have := (List.mem_filter.mp hymem').2
    simpa using this
  obtain ⟨r1, h1, a1⟩ :=
    handle_new_episode choice ids hids 3 (by omega) lang 1 (Or.inl rfl) hkx
  obtain ⟨r2, h2, a2⟩ :=
    handle_same_actuator choice ids hids 3 1 1 (by omega) lang 1 (Or.inl rfl) x hkx none none
  obtain ⟨r3, h3, a3⟩ :=
    handle_same_actuator choice ids hids 3 2 2 (by omega) lang 1 (Or.inl rfl) x hkx none none
  obtain ⟨r4, h4, a4⟩ :=
    handle_rotate choice ids hids 3 3 3 (by omega) hlen1 lang x hxne hfilter
      (hkind y hymem) none none
  obtain ⟨r5, h5, a5⟩ :=
    handle_same_actuator choice ids hids 3 1 1 (by omega) lang 1 (Or.inl rfl) y
      (hkind y hymem) none none
  obtain ⟨r6, h6, a6⟩ :=
    handle_same_actuator choice ids hids 3 2 2 (by omega) lang 1 (Or.inl rfl) y
      (hkind y hymem) none none
  refine ⟨x, y, hxmem, hymem, hyne, ?_⟩
  simp only [handleRun, h1, h2, h3, h4, h5, h6]
  simp [a1, a2, a3, a4, a5, a6]
  have hfeq : List.filter (fun a => !decide (a = x)) ids
      = List.filter (fun a => decide (a ≠ x)) ids := by
    simp
  rw [hfeq]

/-- Witness for C8 at a concrete input: two actuators
`["led_a", "meta_b"]` and the head-picking draw sequence. -/
theorem policy_rotation_pattern_witness :
    ∃ x y, x ∈ ["led_a", "meta_b"] ∧ y ∈ ["led_a", "meta_b"] ∧ y ≠ x ∧
      (handleRun (fun l => l.headD "")
          ⟨["led_a", "meta_b"], 3, "eng", none, none, 0, 0, none, none⟩
          [some 1, some 1, some 1, some 1, some 1, some 1]).2.map
        (Option.map ActResult.actuator_id) =
      [some x, some x, some x, some y, some y, some y] :=
  policy_rotation_pattern (fun l => l.headD "")
    (fun l hl => by
      cases l with
      | nil => exact absurd rfl hl
      | cons a t => simp)
    ["led_a", "meta_b"] (by decide) (by decide) "eng" (by decide)

/-! ## Event dispatcher — `core/event_dispatcher.py`

One `_process_events` loop iteration on a dequeued event.  The event is
reduced to the fields the loop body reads: the parse result of
`int(event["stereotipy_tag"])` (`none` = unparseable) and its `gated`
flag, carried to make its (non-)use statable.  `time.monotonic()` is the
`now` argument; `trigOk` says whether `actuator_manager.trigger` raises
on this event (the exception is caught per-event, lines 89–90 and
119–120). -/

def ACTUATION_COOLDOWN : ℚ := 5

structure DispatchState where
  last_tag : Option ℤ
  last_actuation_time : Option ℚ
  deriving Repr, DecidableEq

structure ClassEvent where
  tag : Option ℤ
  gated : Bool
  deriving Repr, DecidableEq

/-- Body of `EventDispatcher._process_events` (lines 67–123) for one
event: on a tag transition call the policy once, trigger the result if
present (recording `last_actuation_time = now` unless the trigger
raised; resetting it to `None` when the policy returned no action) and
update `last_tag`; on a repeated active tag (1 or 2), retrigger through
the policy only when no prior actuation is recorded or the cooldown has
elapsed; otherwise do nothing.  Returns the dispatcher state, the policy
state, and the `ActResult` passed to `actuator_manager.trigger` (if that
call was made). -/
def dispatch_step (choice : List String → String) (trigOk : Bool)
    (d : DispatchState) (pol : PolicyState) (ev : ClassEvent) (now : ℚ) :
    DispatchState × PolicyState × Option ActResult :=
  let tag := ev.tag
  if tag ≠ d.last_tag then
    let pr := handle choice pol tag
    match pr.2 with
    | some r =>
      let d := if trigOk then { d with last_actuation_time := some now } else d
      ({ d with last_tag := tag }, pr.1, some r)
    | none =>
      ({ last_tag := tag, last_actuation_time := none }, pr.1, none)
  else
    if tag = some 1 ∨ tag = some 2 then
      if d.last_actuation_time = none ∨
          ACTUATION_COOLDOWN ≤ now - d.last_actuation_time.getD 0 then
        let pr := handle choice pol tag
        match pr.2 with
        | some r =>
          (if trigOk then { d with last_actuation_time := some now } else d,
           pr.1, some r)
        | none => (d, pr.1, none)
      else (d, pol, none)
    else (d, pol, none)

/-- Consume a timed sequence of events, collecting the trigger calls. -/
def dispatchRun (choice : List String → String) (trigOk : Bool) :
    DispatchState → PolicyState → List (ClassEvent × ℚ) →
    (DispatchState × PolicyState) × List (Option ActResult)
  | d, pol, [] => ((d, pol), [])
  | d, pol, (ev, now) :: evs =>
    let o := dispatch_step choice trigOk d pol ev now
    let rest := dispatchRun choice trigOk o.1 o.2.1 evs
    (rest.1, o.2.2 :: rest.2)

/-- The cooldown gate: a repeated active tag within the cooldown window
is a no-op — no trigger, no policy call, no state change. -/
theorem dispatch_cooldown_blocked (choice : List String → String)
    (trigOk : Bool) (d : DispatchState) (pol : PolicyState)
    (ev : ClassEvent) (now t : ℚ)
    (hsame : ev.tag = d.last_tag)
    (hactive : ev.tag = some 1 ∨ ev.tag = some 2)
    (hprior : d.last_actuation_time = some t)
    (hlt : now - t < ACTUATION_COOLDOWN) :
    dispatch_step choice trigOk d pol ev now = (d, pol, none) := by
  have h1 : ¬(ev.tag ≠ d.last_tag) := by simp [hsame]
  have h3 : ¬(d.last_actuation_time = none ∨
      ACTUATION_COOLDOWN ≤ now - d.last_actuation_time.getD 0) := by
    rw [hprior]
    refine not_or.mpr ⟨by simp, ?_⟩
    simp only [Option.getD_some]
    exact not_le.mpr hlt
  simp only [dispatch_step, if_neg h1, if_pos hactive, if_neg h3]

/-- C2: the dispatcher never reads the event's `gated` flag — its
behaviour is identical for `gated = true` and `gated = false` — and a
gated event *does* cause an actuation: at a concrete gated event
(tag 1, fresh dispatcher, one led actuator) the policy is invoked, the
Actuator Manager is triggered, `lastActuationTime` is set and `lastTag`
is updated, refuting the claim that a gated event is audit-only. -/
theorem dispatcher_ignores_gated :
    (∀ (choice : List String → String) (trigOk : Bool) (d : DispatchState)
        (pol : PolicyState) (t : Option ℤ) (b b' : Bool) (now : ℚ),
      dispatch_step choice trigOk d pol ⟨t, b⟩ now =
      dispatch_step choice trigOk d pol ⟨t, b'⟩ now) ∧
    dispatch_step (fun l => l.headD "") true ⟨none, none⟩
        ⟨["led_a"], 5, "eng", none, none, 0, 0, none, none⟩
        ⟨some 1, true⟩ 0 =
      (⟨some 1, some 0⟩,
       ⟨["led_a"], 5, "eng", some 1, some "led_a", 1, 1, none, none⟩,
       some ⟨"led_a", .led (255, 255, 255, 0) 50 100⟩) := by
  refine ⟨fun _ _ _ _ _ _ _ _ => rfl, ?_⟩
  have hh : handle (fun l => l.headD "")
      ⟨["led_a"], 5, "eng", none, none, 0, 0, none, none⟩ (some 1) =
      (⟨["led_a"], 5, "eng", some 1, some "led_a", 1, 1, none, none⟩,
       some ⟨"led_a", .led (255, 255, 255, 0) 50 100⟩) := by rfl
  simp [dispatch_step, hh, -List.headD_eq_head?_getD]

/-- C9: the dispatcher's cooldown.  (i) For a repeated tag in
`{NON_DANGEROUS, DANGEROUS}` with a recorded prior actuation less than
5 s old, nothing happens — no trigger, no policy-state advance.
(ii) With tag constantly 2, one led actuator and events at
`t = 0, 1, 2, 3, 4, 5` s: only the first event actuates (strong
variant 0); the events at 1–4 s are blocked; the event at 5 s — exactly
5 s after the recorded actuation — retriggers through the policy with
its next variation and refreshes `lastActuationTime` to 5. -/
theorem dispatcher_cooldown :
    (∀ (choice : List String → String) (trigOk : Bool) (d : DispatchState)
        (pol : PolicyState) (ev : ClassEvent) (now t : ℚ),
      ev.tag = d.last_tag → (ev.tag = some 1 ∨ ev.tag = some 2) →
      d.last_actuation_time = some t → now - t < ACTUATION_COOLDOWN →
      dispatch_step choice trigOk d pol ev now = (d, pol, none)) ∧
    dispatchRun (fun l => l.headD "") true ⟨none, none⟩
        ⟨["led_a"], 5, "eng", none, none, 0, 0, none, none⟩
        [(⟨some 2, false⟩, 0), (⟨some 2, false⟩, 1), (⟨some 2, false⟩, 2),
         (⟨some 2, false⟩, 3), (⟨some 2, false⟩, 4), (⟨some 2, false⟩, 5)] =
      ((⟨some 2, some 5⟩,
        ⟨["led_a"], 5, "eng", some 2, some "led_a", 2, 2, none, none⟩),
       [some ⟨"led_a", .led (255, 0, 0, 0) 100 100⟩, none, none, none, none,
        some ⟨"led_a", .led (255, 128, 0, 0) 100 100⟩]) := by
  constructor
  · intro choice trigOk d pol ev now t hsame hactive hprior hlt
    exact dispatch_cooldown_blocked choice trigOk d pol ev now t hsame
      hactive hprior hlt
  · have hh1 : handle (fun l => l.headD "")
        ⟨["led_a"], 5, "eng", none, none, 0, 0, none, none⟩ (some 2) =
        (⟨["led_a"], 5, "eng", some 2, some "led_a", 1, 1, none, none⟩,
         some ⟨"led_a", .led (255, 0, 0, 0) 100 100⟩) := by rfl
    have hs1 : dispatch_step (fun l => l.headD "") true ⟨none, none⟩
        ⟨["led_a"], 5, "eng", none, none, 0, 0, none, none⟩
        ⟨some 2, false⟩ 0 =
        (⟨some 2, some 0⟩,
         ⟨["led_a"], 5, "eng", some 2, some "led_a", 1, 1, none, none⟩,
         some ⟨"led_a", .led (255, 0, 0, 0) 100 100⟩) := by
      simp [dispatch_step, hh1, -List.headD_eq_head?_getD]
    have hblock : ∀ now : ℚ, now - 0 < ACTUATION_COOLDOWN →
        dispatch_step (fun l => l.headD "") true ⟨some 2, some 0⟩
          ⟨["led_a"], 5, "eng", some 2, some "led_a", 1, 1, none, none⟩
          ⟨some 2, false⟩ now =
        (⟨some 2, some 0⟩,
         ⟨["led_a"], 5, "eng", some 2, some "led_a", 1, 1, none, none⟩,
         none) := fun now hlt =>
      dispatch_cooldown_blocked _ true _ _ _ now 0 rfl (Or.inr rfl) rfl hlt
    have hh6 : handle (fun l => l.headD "")
        ⟨["led_a"], 5, "eng", some 2, some "led_a", 1, 1, none, none⟩
        (some 2) =
        (⟨["led_a"], 5, "eng", some 2, some "led_a", 2, 2, none, none⟩,
         some ⟨"led_a", .led (255, 128, 0, 0) 100 100⟩) := by rfl
    have hs6 : dispatch_step (fun l => l.headD "") true ⟨some 2, some 0⟩
        ⟨["led_a"], 5, "eng", some 2, some "led_a", 1, 1, none, none⟩
        ⟨some 2, false⟩ 5 =
        (⟨some 2, some 5⟩,
         ⟨["led_a"], 5, "eng", some 2, some "led_a", 2, 2, none, none⟩,
         some ⟨"led_a", .led (255, 128, 0, 0) 100 100⟩) := by
      have hc : (⟨some 2, some 0⟩ : DispatchState).last_actuation_time
            = none ∨
          ACTUATION_COOLDOWN ≤ (5 : ℚ) -
            (⟨some 2, some 0⟩ : DispatchState).last_actuation_time.getD 0 := by
        right
        norm_num [ACTUATION_COOLDOWN]
      simp [dispatch_step, if_pos hc, hh6, -List.headD_eq_head?_getD]
      norm_num [ACTUATION_COOLDOWN]
    simp only [dispatchRun, hs1,
      hblock 1 (by norm_num [ACTUATION_COOLDOWN]),
      hblock 2 (by norm_num [ACTUATION_COOLDOWN]),
      hblock 3 (by norm_num [ACTUATION_COOLDOWN]),
      hblock 4 (by norm_num [ACTUATION_COOLDOWN]), hs6]

/-- Witness for C9 at a concrete input: a repeated tag-2 event 1 s
after the recorded actuation is a no-op. -/
theorem dispatcher_cooldown_witness :
    dispatch_step (fun l => l.headD "") true ⟨some 2, some 0⟩
        ⟨["led_a"], 5, "eng", some 2, some "led_a", 1, 1, none, none⟩
        ⟨some 2, false⟩ 1 =
      (⟨some 2, some 0⟩,
       ⟨["led_a"], 5, "eng", some 2, some "led_a", 1, 1, none, none⟩,
       none) :=
  dispatcher_cooldown.1 (fun l => l.headD "") true ⟨some 2, some 0⟩
    ⟨["led_a"], 5, "eng", some 2, some "led_a", 1, 1, none, none⟩
    ⟨some 2, false⟩ 1 0 rfl (Or.inr rfl) rfl
    (by norm_num [ACTUATION_COOLDOWN])

end STOPme
